import Mathlib

/-!
Verification of the Blynk protocol client (`BlynkLibESP32.py`): a shallow
embedding of the frame codec, the message-id allocator, the per-second rate
limiter, the hardware-command dispatcher `_handle_hw`, the heartbeat monitor
`_server_alive`, the authentication exchange, and one iteration of the inner
receive loop of `Blynk.run`.  Bytes are modelled as `Nat`, byte strings as
`List Nat`, decoded ASCII strings as Lean `String`.
-/

namespace Blynk

/-! ## Frame codec

`Blynk._format_msg` packs a `!BHH` big-endian header (type: 1 byte, id: 2
bytes, length: 2 bytes) followed by the body, which is the NUL-join of the
arguments' textual forms.  `Blynk._handle_hw` recovers the arguments by
splitting the body on NUL, with Python `bytes.split` semantics: the split of
the empty byte string is `[b""]` (one empty piece), never `[]`. -/

/-- Python `b"\0".join(parts)`: concatenate the pieces with a single 0 byte
between consecutive pieces. -/
def joinNul : List (List Nat) → List Nat
  | [] => []
  | [p] => p
  | p :: q :: rest => p ++ 0 :: joinNul (q :: rest)

/-- Python `data.split(b"\0")`: split on every 0 byte.  Always returns at
least one piece; in particular `splitNul [] = [[]]`. -/
def splitNul (bs : List Nat) : List (List Nat) :=
  bs.foldr
    (fun b acc =>
      if b = 0 then [] :: acc
      else
        match acc with
        | [] => [[b]]
        | h :: t => (b :: h) :: t)
    [[]]

theorem splitNul_nil : splitNul [] = [[]] := rfl

theorem splitNul_cons (b : Nat) (bs : List Nat) :
    splitNul (b :: bs) =
      if b = 0 then [] :: splitNul bs
      else
        match splitNul bs with
        | [] => [[b]]
        | h :: t => (b :: h) :: t := rfl

theorem splitNul_ne_nil (bs : List Nat) : splitNul bs ≠ [] := by
  induction bs with
  | nil => simp [splitNul]
  | cons b bs ih =>
    rw [splitNul_cons]
    split
    · simp
    · cases h : splitNul bs with
      | nil => simp
      | cons x t => simp

theorem splitNul_nulFree (p : List Nat) (hp : (0 : Nat) ∉ p) :
    splitNul p = [p] := by
  induction p with
  | nil => rfl
  | cons b bs ih =>
    have hb : b ≠ 0 := by intro h; exact hp (by simp [h])
    have hbs : (0 : Nat) ∉ bs := fun h => hp (List.mem_cons_of_mem _ h)
    rw [splitNul_cons, if_neg hb, ih hbs]

theorem splitNul_append_nul (p rest : List Nat) (hp : (0 : Nat) ∉ p) :
    splitNul (p ++ 0 :: rest) = p :: splitNul rest := by
  induction p with
  | nil => simp [splitNul_cons]
  | cons b bs ih =>
    have hb : b ≠ 0 := by intro h; exact hp (by simp [h])
    have hbs : (0 : Nat) ∉ bs := fun h => hp (List.mem_cons_of_mem _ h)
    have := ih hbs
    rw [List.cons_append, splitNul_cons, if_neg hb, this]

/-- Splitting undoes joining for any nonempty list of NUL-free pieces. -/
theorem splitNul_joinNul (parts : List (List Nat)) (hne : parts ≠ [])
    (hfree : ∀ p ∈ parts, (0 : Nat) ∉ p) :
    splitNul (joinNul parts) = parts := by
  induction parts with
  | nil => exact absurd rfl hne
  | cons p rest ih =>
    cases rest with
    | nil =>
      exact splitNul_nulFree p (hfree p (by simp))
    | cons q rest' =>
      have hp : (0 : Nat) ∉ p := hfree p (by simp)
      have hrest : ∀ x ∈ q :: rest', (0 : Nat) ∉ x := fun x hx =>
        hfree x (List.mem_cons_of_mem _ hx)
      rw [joinNul, splitNul_append_nul p _ hp,
        ih (by simp) hrest]

/-- `struct.pack(HDR_FMT, msg_type, id, len(data)) + data`: the 5-byte
big-endian header followed by the body.  `struct.pack` raises when a field is
out of range, hence the `Option`. -/
def encodeFrame (t id : Nat) (body : List Nat) : Option (List Nat) :=
  if t < 256 ∧ id < 65536 ∧ body.length < 65536 then
    some (t :: id / 256 :: id % 256 :: body.length / 256 :: body.length % 256 :: body)
  else none

/-- Parse the 5-byte header, take exactly `length` body bytes (fails when
fewer are available), and split the body on NUL. -/
def decodeFrame (bs : List Nat) : Option (Nat × Nat × List (List Nat)) :=
  match bs with
  | t :: i1 :: i2 :: l1 :: l2 :: rest =>
    let len := l1 * 256 + l2
    if len ≤ rest.length then some (t, i1 * 256 + i2, splitNul (rest.take len))
    else none
  | _ => none

/-! ## Message id allocator (`Blynk._new_msg_id`) -/

/-- One allocation step of `_new_msg_id`: increment, wrap to 1 above 0xFFFF;
the returned id equals the new counter value. -/
def msgIdStep (m : Nat) : Nat :=
  if m + 1 > 65535 then 1 else m + 1

/-- Counter value after `n` allocations, starting from the initial
`self._msg_id = 1` set in `run`.  For `n ≥ 1` this is the id returned by the
`n`-th allocation. -/
def msgIdState : Nat → Nat
  | 0 => 1
  | n + 1 => msgIdStep (msgIdState n)

theorem msgIdState_closed (n : Nat) : msgIdState n = n % 65535 + 1 := by
  induction n with
  | zero => rfl
  | succ n ih =>
    rw [msgIdState, ih, msgIdStep]
    split <;> omega

/-! ## Rate limiter (`Blynk._send`)

`_send(data, send_anyway)` transmits only when `_tx_count < MAX_MSG_PER_SEC`
(20) or `send_anyway` is set; a transmitted message increments `_tx_count`.
The transport send itself is modelled as succeeding on the first attempt
(the EAGAIN retry loop is transparent to the counter logic). -/

/-- The admission gate of `_send`: new counter value and whether the message
was accepted. -/
def sendGate (txCount : Nat) (anyway : Bool) : Nat × Bool :=
  if txCount < 20 ∨ anyway = true then (txCount + 1, true) else (txCount, false)

/-- Run a sequence of sends (each flagged send-anyway or not) through the
gate; returns the final counter and the per-send acceptance verdicts. -/
def runSends : Nat → List Bool → Nat × List Bool
  | tx, [] => (tx, [])
  | tx, a :: rest =>
    ((runSends (sendGate tx a).1 rest).1,
     (sendGate tx a).2 :: (runSends (sendGate tx a).1 rest).2)

/-- Number of accepted non-bypass sends among (flag, verdict) pairs. -/
def countOrdinary (l : List (Bool × Bool)) : Nat :=
  l.countP (fun p => !p.1 && p.2)

theorem runSends_ordinary_bound (flags : List Bool) (tx : Nat) :
    countOrdinary (flags.zip (runSends tx flags).2) + min tx 20 ≤ 20 := by
  induction flags generalizing tx with
  | nil =>
    simp only [runSends, List.zip_nil_right, countOrdinary, List.countP_nil]
    omega
  | cons a rest ih =>
    simp only [runSends, List.zip_cons_cons, countOrdinary, List.countP_cons]
    simp only [countOrdinary] at ih
    unfold sendGate
    split
    next hacc =>
      have h := ih (tx + 1)
      have htx : tx < 20 ∨ a = true := hacc
      cases a with
      | false =>
        simp
        have hlt : tx < 20 := by
          rcases htx with h' | h'
          · exact h'
          · cases h'
        omega
      | true =>
        simp only [Bool.not_true, Bool.false_and, Bool.false_eq_true, if_false]
        omega
    next hacc =>
      have h := ih tx
      have ha : a = false := by
        cases a
        · rfl
        · exact absurd (Or.inr rfl) hacc
      subst ha
      simp only [Bool.not_false, Bool.true_and, Bool.false_eq_true, if_false]
      omega

theorem runSends_bypass_accepted (flags : List Bool) (tx : Nat) :
    ∀ p ∈ flags.zip (runSends tx flags).2, p.1 = true → p.2 = true := by
  induction flags generalizing tx with
  | nil => simp [runSends]
  | cons a rest ih =>
    intro p hp hflag
    simp only [runSends, List.zip_cons_cons, List.mem_cons] at hp
    rcases hp with h | h
    · subst h
      simp only at hflag ⊢
      subst hflag
      simp [sendGate]
    · exact ih _ p h hflag

theorem runSends_replicate_true (k tx : Nat) :
    (runSends tx (List.replicate k true)).1 = tx + k := by
  induction k generalizing tx with
  | zero => simp [runSends]
  | succ k ih =>
    simp only [List.replicate_succ, runSends, sendGate, or_true, if_true]
    rw [ih]
    omega

/-! ## Client model

State of a `Blynk` object as used by `run`: connection state (0 =
DISCONNECTED, 1 = CONNECTING, 2 = AUTHENTICATING, 3 = AUTHENTICATED), the
virtual-pin registry `_vr_pins`, the hardware-pin map `_hw_pins` (each
`HwPin` represented by its mode string; the electrical HAL is an external
collaborator), the `_pins_configured` flag and the counters.  Callbacks are
represented by numeric handler ids; invoking one is an observable effect. -/

/-- `VrPin`: optional read/write callbacks, as handler ids. -/
structure VrPin where
  read : Option Nat
  write : Option Nat
deriving DecidableEq, Repr

structure Client where
  state : Nat
  vrPins : List (Int × VrPin)
  hwPins : List (Int × String)
  pinsConfigured : Bool
  token : List Nat
  msgId : Nat
  txCount : Nat
  mTime : Nat
  hbTime : Nat
  lastHbId : Nat
deriving DecidableEq, Repr

/-- Observable effects of a step: a frame handed to the transport (type, id,
third header field, body bytes — for control frames the third field carries
a status or zero instead of a length), a printed warning, a virtual-pin
callback invocation, a hardware write, or a connection close with its
cause. -/
inductive Eff where
  | sent (msgType msgId lenField : Nat) (body : List Nat)
  | warn (msg : String)
  | invokeWrite (handler : Nat) (value : String)
  | invokeRead (handler : Nat)
  | hwDigitalWrite (pin val : Int)
  | hwAnalogWrite (pin val : Int)
  | closed (cause : Option String)
deriving DecidableEq, Repr

/-- External hardware values observed by `digital_read` / `analog_read`. -/
structure HwEnv where
  digitalRead : Int → Int
  analogRead : Int → Int

/-- Result of one receive attempt in the inner loop: either no complete
header this tick, or a parsed header plus the body bytes obtained by the
second receive (empty when the body read timed out or the length was 0;
Python tests the buffer for truthiness, so an empty body is never
dispatched). -/
inductive RxEv where
  | noData
  | frame (msgType msgId msgLen : Nat) (body : List Nat)
deriving DecidableEq, Repr

/-- `_new_msg_id` acting on the client. -/
def newMsgIdC (c : Client) : Nat × Client :=
  let m := msgIdStep c.msgId
  (m, { c with msgId := m })

/-- `_send`: the admission gate plus the transmitted-frame effect. -/
def sendC (c : Client) (t id lenField : Nat) (body : List Nat)
    (anyway : Bool) : Client × List Eff :=
  let g := sendGate c.txCount anyway
  if g.2 then ({ c with txCount := g.1 }, [Eff.sent t id lenField body])
  else (c, [])

/-- Bytes of an ASCII string. -/
def strBytes (s : String) : List Nat :=
  s.data.map Char.toNat

/-- `bytes.decode("ascii")` on a byte list. -/
def bytesToStr (bs : List Nat) : String :=
  String.mk (bs.map Char.ofNat)

/-- Body of `_format_msg`: NUL-join of the arguments' textual forms. -/
def strJoinNul (args : List String) : List Nat :=
  joinNul (args.map strBytes)

/-- `self._send(self._format_msg(t, *args))`: allocate an id, build the
frame, and hand it to the gated send (not send-anyway). -/
def sendFormatted (c : Client) (t : Nat) (args : List String) :
    Client × List Eff :=
  let data := strJoinNul args
  let r := newMsgIdC c
  sendC r.2 t r.1 data.length data false

/-- Python `int(s)` restricted to optionally signed decimal numerals (the
only shapes the broker sends); `none` models the `ValueError` raise. -/
def digitsToNat : List Char → Option Nat
  | [] => none
  | cs =>
    if cs.all Char.isDigit then
      some (cs.foldl (fun a c => a * 10 + (c.toNat - 48)) 0)
    else none

def pyInt (s : String) : Option Int :=
  match s.data with
  | '-' :: rest => (digitsToNat rest).map (fun n => -(n : Int))
  | '+' :: rest => (digitsToNat rest).map (fun n => (n : Int))
  | cs => (digitsToNat cs).map (fun n => (n : Int))

/-- Dictionary lookup on an association list. -/
def lookupA (k : Int) : List (Int × α) → Option α
  | [] => none
  | (k', v) :: rest => if k = k' then some v else lookupA k rest

/-- Dictionary assignment `d[k] = v` on an association list. -/
def insertA (k : Int) (v : α) : List (Int × α) → List (Int × α)
  | [] => [(k, v)]
  | (k', v') :: rest =>
    if k = k' then (k, v) :: rest else (k', v') :: insertA k v rest

/-- Even-index elements, Python `l[0::2]`. -/
def evensL : List α → List α
  | [] => []
  | [a] => [a]
  | a :: _ :: rest => a :: evensL rest

/-- Odd-index elements, Python `l[1::2]`. -/
def oddsL : List α → List α
  | [] => []
  | [_] => []
  | _ :: b :: rest => b :: oddsL rest

/-- The `pm` loop: for each (pin, mode) pair, parse the pin, validate the
mode, and assign `hw_pins[pin]`; an invalid mode raises `ValueError`. -/
def procPairs (hw : List (Int × String)) :
    List (String × String) → Except String (List (Int × String))
  | [] => .ok hw
  | (pinS, mode) :: rest =>
    match pyInt pinS with
    | none => .error ("ValueError: invalid literal for int: " ++ pinS)
    | some pin =>
      if mode ≠ "in" ∧ mode ≠ "out" ∧ mode ≠ "pu" ∧ mode ≠ "pd" then
        .error ("Unknown pin " ++ toString pin ++ " mode: " ++ mode)
      else procPairs (insertA pin mode hw) rest

instance {ε α : Type} [DecidableEq ε] [DecidableEq α] :
    DecidableEq (Except ε α) := fun a b =>
  match a, b with
  | .ok x, .ok y =>
    if h : x = y then isTrue (by rw [h]) else isFalse (fun hh => h (by cases hh; rfl))
  | .error x, .error y =>
    if h : x = y then isTrue (by rw [h]) else isFalse (fun hh => h (by cases hh; rfl))
  | .ok _, .error _ => isFalse (fun hh => by cases hh)
  | .error _, .ok _ => isFalse (fun hh => by cases hh)

/-- `Blynk._handle_hw` on the decoded parameter list (the NUL-split body,
each piece ASCII-decoded).  `.error` models an uncaught Python exception
(`IndexError`, `ValueError`, `KeyError`); `run` wraps the call in no
handler, so an `.error` aborts the loop without closing the connection. -/
def handleHw (env : HwEnv) (c : Client) (params : List String) :
    Except String (Client × List Eff) :=
  match params with
  | [] => .error "IndexError: pop from empty list"
  | cmd :: ps =>
    if cmd = "info" then .ok (c, [])
    else if cmd = "pm" then
      match procPairs c.hwPins (List.zip (evensL ps) (oddsL ps)) with
      | .error e => .error e
      | .ok hw' => .ok ({ c with hwPins := hw', pinsConfigured := true }, [])
    else if cmd = "vw" then
      match ps with
      | [] => .error "IndexError: pop from empty list"
      | pinS :: values =>
        match pyInt pinS with
        | none => .error ("ValueError: invalid literal for int: " ++ pinS)
        | some pin =>
          match lookupA pin c.vrPins with
          | some vp =>
            match vp.write with
            | some h => .ok (c, values.map (Eff.invokeWrite h))
            | none =>
              .ok (c, [Eff.warn ("Warning: Virtual write to unregistered pin "
                ++ toString pin)])
          | none =>
            .ok (c, [Eff.warn ("Warning: Virtual write to unregistered pin "
              ++ toString pin)])
    else if cmd = "vr" then
      match ps with
      | [] => .error "IndexError: pop from empty list"
      | pinS :: _ =>
        match pyInt pinS with
        | none => .error ("ValueError: invalid literal for int: " ++ pinS)
        | some pin =>
          match lookupA pin c.vrPins with
          | some vp =>
            match vp.read with
            | some h => .ok (c, [Eff.invokeRead h])
            | none =>
              .ok (c, [Eff.warn ("Warning: Virtual read from unregistered pin "
                ++ toString pin)])
          | none =>
            .ok (c, [Eff.warn ("Warning: Virtual read from unregistered pin "
              ++ toString pin)])
    else if c.pinsConfigured then
      if cmd = "dw" then
        match ps with
        | pinS :: valS :: _ =>
          match pyInt pinS with
          | none => .error ("ValueError: invalid literal for int: " ++ pinS)
          | some pin =>
            match pyInt valS with
            | none => .error ("ValueError: invalid literal for int: " ++ valS)
            | some v =>
              match lookupA pin c.hwPins with
              | some _ => .ok (c, [Eff.hwDigitalWrite pin v])
              | none => .error ("KeyError: " ++ toString pin)
        | _ => .error "IndexError: pop from empty list"
      else if cmd = "aw" then
        match ps with
        | pinS :: valS :: _ =>
          match pyInt pinS with
          | none => .error ("ValueError: invalid literal for int: " ++ pinS)
          | some pin =>
            match pyInt valS with
            | none => .error ("ValueError: invalid literal for int: " ++ valS)
            | some v =>
              match lookupA pin c.hwPins with
              | some _ => .ok (c, [Eff.hwAnalogWrite pin v])
              | none => .error ("KeyError: " ++ toString pin)
        | _ => .error "IndexError: pop from empty list"
      else if cmd = "dr" then
        match ps with
        | pinS :: _ =>
          match pyInt pinS with
          | none => .error ("ValueError: invalid literal for int: " ++ pinS)
          | some pin =>
            match lookupA pin c.hwPins with
            | some _ =>
              let v := env.digitalRead pin
              .ok (sendFormatted c 20 ["dw", toString pin, toString v])
            | none => .error ("KeyError: " ++ toString pin)
        | _ => .error "IndexError: pop from empty list"
      else if cmd = "ar" then
        match ps with
        | pinS :: _ =>
          match pyInt pinS with
          | none => .error ("ValueError: invalid literal for int: " ++ pinS)
          | some pin =>
            match lookupA pin c.hwPins with
            | some _ =>
              let v := env.analogRead pin
              .ok (sendFormatted c 20 ["aw", toString pin, toString v])
            | none => .error ("KeyError: " ++ toString pin)
        | _ => .error "IndexError: pop from empty list"
      else .error ("Unknown message cmd: " ++ cmd)
    else .ok (c, [])

/-- `Blynk._close`: release the transport and fall back to DISCONNECTED
(the backoff sleep and the error print leave no state behind). -/
def closeConn (c : Client) : Client :=
  { c with state := 0 }

/-- `Blynk._server_alive` at wall-clock second `time`: on a new second reset
the per-second counter, detect an unanswered heartbeat older than
MAX_SOCK_TO (5 s), or send a fresh ping once HB_PERIOD (10 s) elapsed while
AUTHENTICATED.  Returns the updated client, the liveness verdict, and any
send effects. -/
def serverAlive (c : Client) (time : Nat) : Client × Bool × List Eff :=
  if c.mTime ≠ time then
    let c1 := { c with mTime := time, txCount := 0 }
    if c.lastHbId ≠ 0 ∧ 5 ≤ time - c.hbTime then (c1, false, [])
    else if 10 ≤ time - c.hbTime ∧ c.state = 3 then
      let r := newMsgIdC c1
      let c2 := { r.2 with hbTime := time, lastHbId := r.1 }
      let s := sendC c2 6 r.1 0 [] true
      (s.1, true, s.2)
    else (c1, true, [])
  else (c, true, [])

/-- Tail of one inner-loop iteration: the `_server_alive` check and, when it
fails, `_close("Blynk server is offline")` followed by `break`. -/
def afterRecv (c : Client) (effs : List Eff) (time : Nat) :
    Except String (Client × List Eff × Bool) :=
  let r := serverAlive c time
  if r.2.1 then .ok (r.1, effs ++ r.2.2, false)
  else .ok (closeConn r.1,
    effs ++ r.2.2 ++ [Eff.closed (some "Blynk server is offline")], true)

/-- One iteration of the inner `while self._do_connect` loop of `run`
(lines 535-562): receive, dispatch by message type, then the liveness
check.  The returned flag is true when the iteration executed `break`. -/
def innerStep (env : HwEnv) (c : Client) (ev : RxEv) (time : Nat) :
    Except String (Client × List Eff × Bool) :=
  match ev with
  | .noData => afterRecv c [] time
  | .frame t id _len body =>
    if id = 0 then
      .ok (closeConn c, [Eff.closed (some ("invalid msg id " ++ toString id))],
        true)
    else if t = 0 then
      afterRecv (if id = c.lastHbId then { c with lastHbId := 0 } else c) [] time
    else if t = 6 then
      let s := sendC c 0 id 200 [] true
      afterRecv s.1 s.2 time
    else if t = 20 ∨ t = 15 then
      if body ≠ [] then
        match handleHw env c ((splitNul body).map bytesToStr) with
        | .error e => .error e
        | .ok r => afterRecv r.1 r.2 time
      else afterRecv c [] time
    else
      .ok (closeConn c,
        [Eff.closed (some ("unknown message type " ++ toString t))], true)

/-- Run the inner loop over a list of (receive result, wall-clock second)
pairs, stopping at a `break`; effects are tagged with the second at which
they occurred. -/
def runLoop (env : HwEnv) : Client → List (RxEv × Nat) →
    Except String (Client × List (Nat × Eff))
  | c, [] => .ok (c, [])
  | c, (ev, t) :: rest =>
    match innerStep env c ev t with
    | .error e => .error e
    | .ok (c', effs, broke) =>
      if broke then .ok (c', effs.map (fun e => (t, e)))
      else
        match runLoop env c' rest with
        | .error e => .error e
        | .ok (cf, trace) => .ok (cf, effs.map (fun e => (t, e)) ++ trace)

/-- A heartbeat ping frame: MSG_PING (6) with an empty body.  Only
`_server_alive` emits these. -/
def isPing : Eff → Bool
  | .sent t _ lenF body => t == 6 && lenF == 0 && body.isEmpty
  | _ => false

/-- A hardware-info frame: MSG_HW_INFO (17). -/
def isHwInfo : Eff → Bool
  | .sent t _ _ _ => t == 17
  | _ => false

/-- Seconds at which heartbeat pings were sent during a trace. -/
def pingTimes (trace : List (Nat × Eff)) : List Nat :=
  (trace.filter (fun p => isPing p.2)).map Prod.fst

/-- The login exchange of `run` (lines 496-526), starting from a freshly
connected transport: enter AUTHENTICATING, send the LOGIN frame
(send-anyway), then act on the response header — `none` models the
`_recv` timeout. -/
def authExchange (c : Client) (resp : Option (Nat × Nat × Nat)) :
    Client × List Eff :=
  let r := newMsgIdC { c with state := 2 }
  let s := sendC r.2 2 r.1 c.token.length c.token true
  match resp with
  | none =>
    (closeConn s.1, s.2 ++ [Eff.closed (some "Blynk authentication timed out")])
  | some (_, mid, status) =>
    if status ≠ 200 ∨ mid = 0 then
      (closeConn s.1, s.2 ++ [Eff.closed (some "Blynk authentication failed")])
    else
      let c3 := { s.1 with state := 3 }
      let s2 := sendFormatted c3 17 ["h-beat", "10", "dev", "WiPy", "cpu", "CC3200"]
      (s2.1, s.2 ++ s2.2)

/-- Lines 532-534 of `run`: executed each time the authenticated inner loop
is (re-)entered. -/
def enterLoop (c : Client) : Client :=
  { c with hbTime := 0, lastHbId := 0, txCount := 0 }

/-- The per-call initialisation of `run` (lines 453-463): performed once,
not per connection. -/
def runInit (vr : List (Int × VrPin)) (token : List Nat) : Client :=
  { state := 0
    vrPins := vr
    hwPins := []
    pinsConfigured := false
    token := token
    msgId := 1
    txCount := 0
    mTime := 0
    hbTime := 0
    lastHbId := 0 }

/-! ## Claims about the frame codec -/

/-- Claim C3 (amended): encoding a frame (type tag, id, NONEMPTY list of
NUL-free body arguments) with `_format_msg` and then decoding the bytes —
parse the 5-byte big-endian header, take exactly `length` body bytes, split
on NUL — returns the original type, id, and argument list.  The nonemptiness
hypothesis is forced: the empty argument list encodes to an empty body,
which splits into one empty argument, not zero. -/
theorem encode_decode_roundtrip (t id : Nat) (args : List (List Nat))
    (ht : t < 256) (hid : id < 65536) (hne : args ≠ [])
    (hfree : ∀ a ∈ args, (0 : Nat) ∉ a)
    (hlen : (joinNul args).length < 65536) :
    (encodeFrame t id (joinNul args)).bind decodeFrame = some (t, id, args) := by
  have hid2 : id / 256 * 256 + id % 256 = id := by omega
  have hlen2 : (joinNul args).length / 256 * 256 + (joinNul args).length % 256 =
      (joinNul args).length := by omega
  rw [encodeFrame, if_pos ⟨ht, hid, hlen⟩, Option.some_bind]
  simp only [decodeFrame]
  rw [hlen2, hid2, if_pos (le_refl (joinNul args).length), List.take_length,
    splitNul_joinNul args hne hfree]

/-- Witness for C3: a concrete `vw` frame round-trips. -/
theorem encode_decode_roundtrip_witness :
    (encodeFrame 20 1 (joinNul [[118, 119], [50]])).bind decodeFrame =
      some (20, 1, [[118, 119], [50]]) :=
  encode_decode_roundtrip 20 1 [[118, 119], [50]]
    (by decide) (by decide) (by decide) (by decide) (by decide)

/-- Counterexample for C3 as stated: a frame with ZERO body arguments (as
`sync_all` sends, type HW_SYNC = 16) does not round-trip — it decodes to one
empty argument. -/
theorem encode_decode_empty_args_cex :
    (encodeFrame 16 1 (joinNul [])).bind decodeFrame = some (16, 1, [[]]) ∧
      ([[]] : List (List Nat)) ≠ [] := by
  constructor
  · decide
  · decide

/-- Claim C4 (amended): a frame with an empty body (length field 0) is valid
— decoding succeeds — but the body splits into exactly ONE argument, the
empty string, not zero arguments; moreover the run loop treats an empty-body
HW frame exactly like a tick with no data (the zero-length body read returns
an empty, falsy buffer, so `_handle_hw` is never called). -/
theorem empty_body_frame (t id : Nat) (ht : t = 20) (hid : id < 65536) :
    (decodeFrame [t, id / 256, id % 256, 0, 0] = some (t, id, [[]]) ∧
      ([[]] : List (List Nat)).length = 1) ∧
    ∀ (env : HwEnv) (c : Client) (time : Nat), id ≠ 0 →
      innerStep env c (.frame t id 0 []) time = innerStep env c .noData time := by
  constructor
  · constructor
    · have hid2 : id / 256 * 256 + id % 256 = id := by omega
      simp only [decodeFrame]
      norm_num
      rw [hid2]
      exact ⟨rfl, rfl⟩
    · rfl
  · intro env c time hidne
    subst ht
    simp only [innerStep, hidne, if_neg, if_pos]
    simp [hidne]

/-- Witness for C4 at a concrete frame. -/
theorem empty_body_frame_witness :
    (decodeFrame [20, 0, 1, 0, 0] = some (20, 1, [[]]) ∧
      ([[]] : List (List Nat)).length = 1) ∧
    ∀ (env : HwEnv) (c : Client) (time : Nat), 1 ≠ 0 →
      innerStep env c (.frame 20 1 0 []) time = innerStep env c .noData time := by
  have h := empty_body_frame 20 1 rfl (by decide)
  constructor
  · exact h.1
  · exact h.2

/-- Counterexample for C4 as stated: decoding a concrete empty-body frame
yields one argument, not zero. -/
theorem empty_body_frame_cex :
    decodeFrame [20, 0, 1, 0, 0] = some (20, 1, [[]]) ∧
      ([[]] : List (List Nat)).length ≠ 0 := by
  constructor
  · decide
  · decide

/-! ## Claim about the message id allocator -/

/-- Claim C7: starting from the initial counter 1 set in `run`, every
allocated message id lies in [1, 65535] (in particular 0 is never
returned), and the allocation immediately after the one that returned
65535 returns 1. -/
theorem msg_id_range_and_wrap (n : Nat) :
    (1 ≤ msgIdState n ∧ msgIdState n ≤ 65535) ∧
      (msgIdState n = 65535 → msgIdState (n + 1) = 1) := by
  have h := msgIdState_closed n
  have h2 := msgIdState_closed (n + 1)
  constructor
  · constructor <;> omega
  · intro hw
    omega

/-- Witness for C7: the 65534-th allocation returns 65535 (via the closed
form) and the next one returns 1. -/
theorem msg_id_range_and_wrap_witness :
    (1 ≤ msgIdState 65534 ∧ msgIdState 65534 ≤ 65535) ∧ msgIdState 65535 = 1 := by
  have h := msg_id_range_and_wrap 65534
  refine ⟨h.1, h.2 ?_⟩
  rw [msgIdState_closed]

/-! ## Claims about the rate limiter -/

/-- Claim C6: within one wall-clock-second window (counter freshly reset to
0, as `_server_alive` does on each new second), at most 20 sends not marked
send-anyway are accepted by `_send`, and every send-anyway send is accepted
no matter how many sends already occurred. -/
theorem rate_limiter_window (flags : List Bool) :
    countOrdinary (flags.zip (runSends 0 flags).2) ≤ 20 ∧
      ∀ p ∈ flags.zip (runSends 0 flags).2, p.1 = true → p.2 = true := by
  constructor
  · have h := runSends_ordinary_bound flags 0
    omega
  · exact runSends_bypass_accepted flags 0

/-- Witness for C6: 25 ordinary sends interleaved with bypass sends — the
bypass ones are all accepted. -/
theorem rate_limiter_window_witness :
    countOrdinary ((List.replicate 12 true ++ List.replicate 25 false).zip
      (runSends 0 (List.replicate 12 true ++ List.replicate 25 false)).2) ≤ 20 ∧
    ∀ p ∈ (List.replicate 12 true ++ List.replicate 25 false).zip
        (runSends 0 (List.replicate 12 true ++ List.replicate 25 false)).2,
      p.1 = true → p.2 = true := by
  have h := rate_limiter_window (List.replicate 12 true ++ List.replicate 25 false)
  exact ⟨h.1, h.2⟩

/-- Claim C10: every accepted send increments `_tx_count`, also when marked
send-anyway; consequently, after `k` bypass sends in a fresh window the
counter stands at `k` and at most `20 - k` ordinary sends can still be
accepted in that window. -/
theorem bypass_sends_consume_quota :
    (∀ tx anyway, (sendGate tx anyway).2 = true →
      (sendGate tx anyway).1 = tx + 1) ∧
    ∀ (k : Nat) (flags : List Bool), k ≤ 20 →
      (runSends 0 (List.replicate k true)).1 = k ∧
      countOrdinary (flags.zip (runSends k flags).2) + k ≤ 20 := by
  constructor
  · intro tx anyway hacc
    by_cases h : tx < 20 ∨ anyway = true
    · simp [sendGate, h]
    · rw [sendGate, if_neg h] at hacc
      exact Bool.noConfusion hacc
  · intro k flags hk
    constructor
    · rw [runSends_replicate_true]
      omega
    · have h := runSends_ordinary_bound flags k
      omega

/-- Witness for C10: three bypass sends leave the counter at 3 and at most
17 ordinary sends are then accepted. -/
theorem bypass_sends_consume_quota_witness :
    (sendGate 20 true).2 = true ∧ (sendGate 20 true).1 = 20 + 1 ∧
    (runSends 0 (List.replicate 3 true)).1 = 3 ∧
    countOrdinary ((List.replicate 25 false).zip
      (runSends 3 (List.replicate 25 false)).2) + 3 ≤ 20 := by
  have h := bypass_sends_consume_quota
  have h2 := h.2 3 (List.replicate 25 false) (by decide)
  exact ⟨by decide, h.1 20 true (by decide), h2.1, h2.2⟩

/-! ## Claims about the dispatcher -/

/-- A hardware environment for concrete runs. -/
def env0 : HwEnv := ⟨fun _ => 0, fun _ => 1⟩

theorem handleHw_unknown_cmd (env : HwEnv) (c : Client) (cmd : String)
    (rest : List String)
    (hmem : cmd ∉ (["info", "pm", "vw", "vr", "dw", "aw", "dr", "ar"] : List String)) :
    (c.pinsConfigured = true →
      handleHw env c (cmd :: rest) = .error ("Unknown message cmd: " ++ cmd)) ∧
    (c.pinsConfigured = false → handleHw env c (cmd :: rest) = .ok (c, [])) := by
  simp only [List.mem_cons, List.mem_singleton, not_or] at hmem
  obtain ⟨h1, h2, h3, h4, h5, h6, h7, h8, -⟩ := hmem
  constructor
  · intro hpc
    simp only [handleHw, if_neg h1, if_neg h2, if_neg h3, if_neg h4, hpc,
      if_true, if_neg h5, if_neg h6, if_neg h7, if_neg h8]
  · intro hpc
    simp only [handleHw, if_neg h1, if_neg h2, if_neg h3, if_neg h4, hpc,
      Bool.false_eq_true, if_false]

/-- Claim C1 (amended): a received hardware frame whose command name is
outside the fixed vocabulary is handled as follows.  If pins have been
configured, `_handle_hw` raises `ValueError("Unknown message cmd: ...")`;
`run` installs no handler around the dispatch, so the exception propagates
out of the loop — the connection is NOT closed and the state is NOT set back
to Disconnected by the client.  If pins have NOT been configured, the
command is silently ignored: no effect, no state change, no error. -/
theorem unknown_command_dispatch :
    (∀ (env : HwEnv) (c : Client) (cmd : String) (rest : List String),
      cmd ∉ (["info", "pm", "vw", "vr", "dw", "aw", "dr", "ar"] : List String) →
      (c.pinsConfigured = true →
        handleHw env c (cmd :: rest) = .error ("Unknown message cmd: " ++ cmd)) ∧
      (c.pinsConfigured = false → handleHw env c (cmd :: rest) = .ok (c, []))) ∧
    ∀ (env : HwEnv) (c : Client) (time : Nat), c.pinsConfigured = true →
      innerStep env c (.frame 20 5 3 [120, 121, 122]) time =
        .error "Unknown message cmd: xyz" := by
  constructor
  · exact handleHw_unknown_cmd
  · intro env c time hpc
    have hb : ((splitNul [120, 121, 122]).map bytesToStr) = ["xyz"] := by decide
    have h := (handleHw_unknown_cmd env c "xyz" [] (by decide)).1 hpc
    simp only [innerStep]
    norm_num
    rw [hb, h]
    simp

/-- Client for the C1 demonstrations: authenticated, pins not configured. -/
def c1demo : Client := { runInit [] [97] with state := 3 }

/-- Counterexample for C1 as stated: with pins not configured, the unknown
command "xyz" is silently ignored — result `.ok` with no effects, state
still AUTHENTICATED (3) — instead of closing the connection. -/
theorem unknown_command_dispatch_cex :
    handleHw env0 c1demo ["xyz"] = .ok (c1demo, []) ∧
      c1demo.pinsConfigured = false ∧ c1demo.state = 3 := by
  refine ⟨by decide, rfl, rfl⟩

/-- Witness for C1 at concrete inputs. -/
theorem unknown_command_dispatch_witness :
    handleHw env0 { c1demo with pinsConfigured := true } ["zz"] =
        .error "Unknown message cmd: zz" ∧
      handleHw env0 c1demo ["zz"] = .ok (c1demo, []) ∧
      innerStep env0 { c1demo with pinsConfigured := true }
          (.frame 20 5 3 [120, 121, 122]) 0 =
        .error "Unknown message cmd: xyz" := by
  have h := unknown_command_dispatch
  exact ⟨(h.1 env0 { c1demo with pinsConfigured := true } "zz" [] (by decide)).1 rfl,
    (h.1 env0 c1demo "zz" [] (by decide)).2 rfl,
    h.2 env0 { c1demo with pinsConfigured := true } 0 rfl⟩

/-- Claim C9: a decoded `vw` command naming pin P invokes exactly the write
handler registered for P, once per value argument with that argument, and no
other handler; with no write handler registered for P it produces exactly a
warning, invokes nothing, keeps the state unchanged and raises nothing. -/
theorem vw_dispatch (env : HwEnv) (c : Client) (pinS : String)
    (values : List String) (pin : Int) (hp : pyInt pinS = some pin) :
    (∀ vp h, lookupA pin c.vrPins = some vp → vp.write = some h →
      handleHw env c ("vw" :: pinS :: values) =
        .ok (c, values.map (Eff.invokeWrite h))) ∧
    (lookupA pin c.vrPins = none ∨
        (∃ vp, lookupA pin c.vrPins = some vp ∧ vp.write = none) →
      handleHw env c ("vw" :: pinS :: values) =
        .ok (c, [Eff.warn ("Warning: Virtual write to unregistered pin "
          ++ toString pin)])) := by
  constructor
  · intro vp h hlk hw
    simp only [handleHw, if_neg (by decide : ¬("vw" = "info")),
      if_neg (by decide : ¬("vw" = "pm")), if_pos rfl, hp, hlk, hw]
    simp
  · intro hcase
    rcases hcase with hlk | ⟨vp, hlk, hw⟩
    · simp only [handleHw, if_neg (by decide : ¬("vw" = "info")),
        if_neg (by decide : ¬("vw" = "pm")), if_pos rfl, hp, hlk]
      simp
    · simp only [handleHw, if_neg (by decide : ¬("vw" = "info")),
        if_neg (by decide : ¬("vw" = "pm")), if_pos rfl, hp, hlk, hw]
      simp

/-- Client for the C9 witness: pin 2 has a write handler (id 7), pin 4 has
only a read handler (id 9), pin 5 is unregistered. -/
def c9demo : Client :=
  { runInit [(2, ⟨none, some 7⟩), (4, ⟨some 9, none⟩)] [97] with state := 3 }

/-- Witness for C9: registered pin 2 gets its handler invoked once per
value; unregistered pin 5 and read-only pin 4 produce only the warning. -/
theorem vw_dispatch_witness :
    handleHw env0 c9demo ["vw", "2", "123", "4"] =
        .ok (c9demo, [.invokeWrite 7 "123", .invokeWrite 7 "4"]) ∧
      handleHw env0 c9demo ["vw", "5", "1"] =
        .ok (c9demo, [.warn "Warning: Virtual write to unregistered pin 5"]) ∧
      handleHw env0 c9demo ["vw", "4", "1"] =
        .ok (c9demo, [.warn "Warning: Virtual write to unregistered pin 4"]) := by
  have h1 := vw_dispatch env0 c9demo "2" ["123", "4"] 2 (by decide)
  have h2 := vw_dispatch env0 c9demo "5" ["1"] 5 (by decide)
  have h3 := vw_dispatch env0 c9demo "4" ["1"] 4 (by decide)
  exact ⟨h1.1 ⟨none, some 7⟩ 7 (by decide) rfl,
    h2.2 (Or.inl (by decide)),
    h3.2 (Or.inr ⟨⟨some 9, none⟩, by decide, rfl⟩)⟩

/-! ## Claim about state across reconnects -/

/-- Claim C2 (amended): across disconnect-and-reconnect cycles within one
call to `run()`, the virtual-pin registry and the hardware-pin map are
preserved unchanged — and so is `pins_configured`: it is set to false only
once, by the per-call initialisation of `run()`, and is NOT reset when a new
connection is established, so hardware commands on a reconnected connection
are processed with the configuration left over from the previous
connection. -/
theorem registry_preserved_across_reconnect :
    (∀ (vr : List (Int × VrPin)) (token : List Nat),
      (runInit vr token).pinsConfigured = false ∧
      (runInit vr token).vrPins = vr ∧ (runInit vr token).hwPins = []) ∧
    (∀ (c : Client) (resp : Option (Nat × Nat × Nat)),
      (authExchange c resp).1.vrPins = c.vrPins ∧
      (authExchange c resp).1.hwPins = c.hwPins ∧
      (authExchange c resp).1.pinsConfigured = c.pinsConfigured) ∧
    (∀ c : Client, (enterLoop c).vrPins = c.vrPins ∧
      (enterLoop c).hwPins = c.hwPins ∧
      (enterLoop c).pinsConfigured = c.pinsConfigured) ∧
    (∀ c : Client, (closeConn c).vrPins = c.vrPins ∧
      (closeConn c).hwPins = c.hwPins ∧
      (closeConn c).pinsConfigured = c.pinsConfigured) := by
  refine ⟨fun vr token => ⟨rfl, rfl, rfl⟩, ?_, fun c => ⟨rfl, rfl, rfl⟩,
    fun c => ⟨rfl, rfl, rfl⟩⟩
  intro c resp
  cases resp with
  | none => simp [authExchange, newMsgIdC, sendC, sendGate, closeConn]
  | some r =>
    obtain ⟨mt, mid, st⟩ := r
    simp only [authExchange, newMsgIdC, sendC, sendGate, closeConn, sendFormatted]
    split_ifs <;> simp

/-- A run of `run()` for the C2 counterexample: register a write handler for
virtual pin 2, authenticate, receive a `pm` frame configuring hardware pin
13, lose the connection to an unknown message type, reconnect and
authenticate again. -/
def c2start : Client := runInit [(2, ⟨none, some 7⟩)] [116, 111, 107]

def c2afterPm : Client :=
  match innerStep env0 (enterLoop
      (authExchange { c2start with state := 1 } (some (0, 1, 200))).1)
      (.frame 20 1 9 (strJoinNul ["pm", "13", "out"])) 1000 with
  | .ok (c, _, _) => c
  | .error _ => c2start

def c2afterClose : Client :=
  match innerStep env0 c2afterPm (.frame 99 5 0 []) 1001 with
  | .ok (c, _, _) => c
  | .error _ => c2start

def c2reconn : Client :=
  (authExchange { c2afterClose with state := 1 } (some (0, 2, 200))).1

/-- Counterexample for C2 as stated: after the reconnected authentication
succeeds (state AUTHENTICATED again), `pins_configured` is still true — it
was not reset to false for the new connection — while the registry and the
hardware map persist. -/
theorem registry_preserved_across_reconnect_cex :
    c2afterClose.state = 0 ∧
      c2reconn.state = 3 ∧ c2reconn.pinsConfigured = true ∧
      c2reconn.hwPins = [(13, "out")] ∧ c2reconn.vrPins = c2start.vrPins := by
  exact ⟨rfl, rfl, rfl, rfl, rfl⟩

/-! ## Claim about the login exchange -/

theorem sendGate_anyway (tx : Nat) : sendGate tx true = (tx + 1, true) := by
  simp [sendGate]

theorem sendC_anyway (c : Client) (t id lenF : Nat) (body : List Nat) :
    sendC c t id lenF body true =
      ({ c with txCount := c.txCount + 1 }, [Eff.sent t id lenF body]) := by
  rw [sendC, sendGate_anyway]
  rfl

/-- Arguments of the hardware-info frame sent on authentication success. -/
def hwInfoArgs : List String := ["h-beat", "10", "dev", "WiPy", "cpu", "CC3200"]

theorem authExchange_none (c : Client) :
    authExchange c none =
      ({ c with state := 0, msgId := msgIdStep c.msgId, txCount := c.txCount + 1 },
        [Eff.sent 2 (msgIdStep c.msgId) c.token.length c.token,
         Eff.closed (some "Blynk authentication timed out")]) := by
  simp only [authExchange, newMsgIdC, sendC_anyway, closeConn]
  rfl

theorem authExchange_bad (c : Client) (mt mid st : Nat)
    (h : st ≠ 200 ∨ mid = 0) :
    authExchange c (some (mt, mid, st)) =
      ({ c with state := 0, msgId := msgIdStep c.msgId, txCount := c.txCount + 1 },
        [Eff.sent 2 (msgIdStep c.msgId) c.token.length c.token,
         Eff.closed (some "Blynk authentication failed")]) := by
  simp only [authExchange, newMsgIdC, sendC_anyway, closeConn]
  rw [if_pos h]
  rfl

theorem authExchange_good (c : Client) (mt mid st : Nat)
    (hst : st = 200) (hmid : mid ≠ 0) :
    authExchange c (some (mt, mid, st)) =
      if c.txCount + 1 < 20 then
        ({ c with state := 3, msgId := msgIdStep (msgIdStep c.msgId), txCount := c.txCount + 1 + 1 },
          [Eff.sent 2 (msgIdStep c.msgId) c.token.length c.token,
           Eff.sent 17 (msgIdStep (msgIdStep c.msgId))
             (strJoinNul hwInfoArgs).length (strJoinNul hwInfoArgs)])
      else
        ({ c with state := 3, msgId := msgIdStep (msgIdStep c.msgId), txCount := c.txCount + 1 },
          [Eff.sent 2 (msgIdStep c.msgId) c.token.length c.token]) := by
  have hcond : ¬(st ≠ 200 ∨ mid = 0) := by
    push_neg
    exact ⟨hst, hmid⟩
  simp only [authExchange, newMsgIdC, sendC_anyway]
  rw [if_neg hcond]
  by_cases hq : c.txCount + 1 < 20
  · rw [if_pos hq]
    simp [sendFormatted, newMsgIdC, sendC, sendGate, hwInfoArgs, hq]
  · rw [if_neg hq]
    simp [sendFormatted, newMsgIdC, sendC, sendGate, hwInfoArgs, hq]

/-- Claim C8 (amended): during the login exchange, (a) no response header
within the timeout closes the connection with "Blynk authentication timed
out" and the state returns to Disconnected; (b) a response with status ≠ 200
or id 0 closes the connection with "Blynk authentication failed" and the
state returns to Disconnected; (c) otherwise the state becomes Authenticated
and the hardware-info frame is sent exactly once IF the per-second send
counter after the login send is still below 20 — the counter carries over
from the previous connection (it is reset only inside the authenticated
loop), so with 19 or more pre-handshake sends the frame is silently dropped
by the rate limiter. -/
theorem auth_exchange_outcomes (c : Client) (resp : Option (Nat × Nat × Nat)) :
    (resp = none →
      (authExchange c resp).1.state = 0 ∧
      Eff.closed (some "Blynk authentication timed out") ∈ (authExchange c resp).2 ∧
      (authExchange c resp).2.countP isHwInfo = 0) ∧
    (∀ mt mid st, resp = some (mt, mid, st) → (st ≠ 200 ∨ mid = 0) →
      (authExchange c resp).1.state = 0 ∧
      Eff.closed (some "Blynk authentication failed") ∈ (authExchange c resp).2 ∧
      (authExchange c resp).2.countP isHwInfo = 0) ∧
    (∀ mt mid st, resp = some (mt, mid, st) → st = 200 → mid ≠ 0 →
      (authExchange c resp).1.state = 3 ∧
      (authExchange c resp).2.countP isHwInfo =
        if c.txCount + 1 < 20 then 1 else 0) := by
  refine ⟨?_, ?_, ?_⟩
  · intro hr
    subst hr
    rw [authExchange_none]
    simp [isHwInfo]
  · intro mt mid st hr hbad
    subst hr
    rw [authExchange_bad c mt mid st hbad]
    simp [isHwInfo]
  · intro mt mid st hr hst hmid
    subst hr
    rw [authExchange_good c mt mid st hst hmid]
    by_cases hq : c.txCount + 1 < 20
    · rw [if_pos hq, if_pos hq]
      simp [isHwInfo]
    · rw [if_neg hq, if_neg hq]
      simp [isHwInfo]

/-- Client entering the login exchange on a fresh `run` call. -/
def c8demo : Client := { runInit [] [97] with state := 1 }

/-- Client entering the login exchange after a reconnect with a stale send
counter: the previous connection transmitted 19 frames (for instance
replies to a burst of server pings, which bypass the limiter but still
increment the counter) within the wall-clock second of the reconnect, and
`_tx_count` is reset only at line 534 and in `_server_alive`, both reached
after authentication completes. -/
def c8stale : Client := { runInit [] [97] with state := 1, txCount := 19 }

/-- Counterexample for C8 as stated: with the stale counter at 19, the
authentication succeeds (state Authenticated) yet NO hardware-info frame is
sent — the rate limiter drops it. -/
theorem auth_exchange_outcomes_cex :
    (authExchange c8stale (some (0, 1, 200))).1.state = 3 ∧
      (authExchange c8stale (some (0, 1, 200))).2.countP isHwInfo = 0 := by
  exact ⟨rfl, rfl⟩

/-- Witness for C8 at concrete inputs: timeout, bad status, and success
with a fresh counter (exactly one hardware-info frame). -/
theorem auth_exchange_outcomes_witness :
    ((authExchange c8demo none).1.state = 0 ∧
      Eff.closed (some "Blynk authentication timed out") ∈ (authExchange c8demo none).2 ∧
      (authExchange c8demo none).2.countP isHwInfo = 0) ∧
    ((authExchange c8demo (some (0, 1, 500))).1.state = 0 ∧
      Eff.closed (some "Blynk authentication failed") ∈
        (authExchange c8demo (some (0, 1, 500))).2 ∧
      (authExchange c8demo (some (0, 1, 500))).2.countP isHwInfo = 0) ∧
    ((authExchange c8demo (some (0, 1, 200))).1.state = 3 ∧
      (authExchange c8demo (some (0, 1, 200))).2.countP isHwInfo = 1) := by
  have h1 := (auth_exchange_outcomes c8demo none).1 rfl
  have h2 := (auth_exchange_outcomes c8demo (some (0, 1, 500))).2.1 0 1 500 rfl
    (Or.inl (by decide))
  have h3 := (auth_exchange_outcomes c8demo (some (0, 1, 200))).2.2 0 1 200 rfl rfl
    (by decide)
  refine ⟨h1, h2, h3.1, ?_⟩
  rw [h3.2]
  rfl

/-! ## Claim about the heartbeat monitor -/

theorem isPing_sent_ne (t id lenF : Nat) (body : List Nat) (ht : t ≠ 6) :
    isPing (Eff.sent t id lenF body) = false := by
  simp only [isPing, Bool.and_eq_false_iff]
  left
  left
  exact beq_eq_false_iff_ne.mpr ht

theorem sendFormatted_no_ping (c : Client) (t : Nat) (args : List String)
    (ht : t ≠ 6) :
    (sendFormatted c t args).1.hbTime = c.hbTime ∧
      ∀ e ∈ (sendFormatted c t args).2, isPing e = false := by
  simp only [sendFormatted, newMsgIdC, sendC]
  constructor
  · split <;> rfl
  · split
    · intro e he
      simp only [List.mem_singleton] at he
      subst he
      exact isPing_sent_ne _ _ _ _ ht
    · intro e he
      exact absurd he (List.not_mem_nil e)

theorem no_ping_nil : ∀ e ∈ ([] : List Eff), isPing e = false := by
  intro e he
  exact absurd he (List.not_mem_nil e)

theorem no_ping_singleton {e0 : Eff} (h : isPing e0 = false) :
    ∀ e ∈ [e0], isPing e = false := by
  intro e he
  simp only [List.mem_singleton] at he
  subst he
  exact h

theorem no_ping_map_write (h : Nat) (values : List String) :
    ∀ e ∈ values.map (Eff.invokeWrite h), isPing e = false := by
  intro e he
  simp only [List.mem_map] at he
  obtain ⟨v, -, hv⟩ := he
  subst hv
  rfl

theorem handleHw_no_ping_match (env : HwEnv) (c : Client) (ps : List String) :
    match handleHw env c ps with
    | .error _ => True
    | .ok r => r.1.hbTime = c.hbTime ∧ ∀ e ∈ r.2, isPing e = false := by
  have h20 : (20 : Nat) ≠ 6 := by decide
  unfold handleHw
  split
  next => exact trivial
  next r heq =>
    repeat' split at heq
    all_goals
      first
      | exact Except.noConfusion heq
      | (cases heq; exact ⟨rfl, no_ping_nil⟩)
      | (cases heq; exact ⟨rfl, no_ping_singleton rfl⟩)
      | (cases heq; exact ⟨rfl, no_ping_map_write _ _⟩)
      | (cases heq; exact sendFormatted_no_ping c 20 _ h20)

theorem handleHw_no_ping (env : HwEnv) (c : Client) (ps : List String)
    (c' : Client) (effs : List Eff)
    (h : handleHw env c ps = .ok (c', effs)) :
    c'.hbTime = c.hbTime ∧ ∀ e ∈ effs, isPing e = false := by
  have hm := handleHw_no_ping_match env c ps
  rw [h] at hm
  exact hm

theorem serverAlive_cases (c : Client) (time : Nat) :
    ((serverAlive c time).1.hbTime = c.hbTime ∧ (serverAlive c time).2.2 = []) ∨
    ((serverAlive c time).1.hbTime = time ∧ 10 ≤ time - c.hbTime ∧
      ∃ id, (serverAlive c time).2.2 = [Eff.sent 6 id 0 []]) := by
  unfold serverAlive
  split_ifs with h1 h2 h3
  · left
    exact ⟨rfl, rfl⟩
  · right
    refine ⟨?_, h3.1, msgIdStep c.msgId, ?_⟩
    · simp [newMsgIdC, sendC_anyway]
    · simp [newMsgIdC, sendC_anyway]
  · left
    exact ⟨rfl, rfl⟩
  · left
    exact ⟨rfl, rfl⟩

theorem afterRecv_ping_cases (c : Client) (effs0 : List Eff) (time : Nat)
    (h0 : ∀ e ∈ effs0, isPing e = false) (c' : Client) (effs : List Eff)
    (broke : Bool) (h : afterRecv c effs0 time = .ok (c', effs, broke)) :
    (c'.hbTime = c.hbTime ∧ effs.filter isPing = []) ∨
    (c'.hbTime = time ∧ 10 ≤ time - c.hbTime ∧
      ∃ id, effs.filter isPing = [Eff.sent 6 id 0 []]) := by
  have hf0 : effs0.filter isPing = [] := List.filter_eq_nil_iff.mpr (by
    intro e he
    simp [h0 e he])
  simp only [afterRecv] at h
  rcases serverAlive_cases c time with ⟨hhb, hsa⟩ | ⟨hhb, hge, id, hsa⟩
  · left
    split_ifs at h <;>
      (simp only [Except.ok.injEq, Prod.mk.injEq] at h
       obtain ⟨hc, he, -⟩ := h
       subst hc
       subst he)
    · exact ⟨hhb, by simp [List.filter_append, hf0, hsa]⟩
    · exact ⟨hhb, by simp [List.filter_append, hf0, hsa, isPing]⟩
  · right
    split_ifs at h <;>
      (simp only [Except.ok.injEq, Prod.mk.injEq] at h
       obtain ⟨hc, he, -⟩ := h
       subst hc
       subst he)
    · exact ⟨hhb, hge, id, by simp [List.filter_append, hf0, hsa, isPing]⟩
    · exact ⟨hhb, hge, id, by simp [List.filter_append, hf0, hsa, isPing]⟩

theorem innerStep_ping_cases (env : HwEnv) (c : Client) (ev : RxEv)
    (time : Nat) (c' : Client) (effs : List Eff) (broke : Bool)
    (h : innerStep env c ev time = .ok (c', effs, broke)) :
    (c'.hbTime = c.hbTime ∧ effs.filter isPing = []) ∨
    (c'.hbTime = time ∧ 10 ≤ time - c.hbTime ∧
      ∃ id, effs.filter isPing = [Eff.sent 6 id 0 []]) := by
  unfold innerStep at h
  split at h
  · exact afterRecv_ping_cases c [] time no_ping_nil c' effs broke h
  next t id len body =>
    by_cases hid : id = 0
    · rw [if_pos hid] at h
      simp only [Except.ok.injEq, Prod.mk.injEq] at h
      obtain ⟨hc, he, -⟩ := h
      subst hc
      subst he
      exact Or.inl ⟨rfl, rfl⟩
    · rw [if_neg hid] at h
      by_cases ht0 : t = 0
      · rw [if_pos ht0] at h
        have hc2 : (if id = c.lastHbId then { c with lastHbId := 0 } else c).hbTime
            = c.hbTime := by split <;> rfl
        rcases afterRecv_ping_cases _ [] time no_ping_nil c' effs broke h with
          ⟨hhb, hf⟩ | ⟨hhb, hge, hex⟩
        · exact Or.inl ⟨hhb.trans hc2, hf⟩
        · right
          rw [hc2] at hge
          exact ⟨hhb, hge, hex⟩
      · rw [if_neg ht0] at h
        by_cases ht6 : t = 6
        · rw [if_pos ht6] at h
          simp only [sendC_anyway] at h
          rcases afterRecv_ping_cases _ [Eff.sent 0 id 200 []] time
              (no_ping_singleton rfl) c' effs broke h with
            ⟨hhb, hf⟩ | ⟨hhb, hge, hex⟩
          · exact Or.inl ⟨hhb, hf⟩
          · exact Or.inr ⟨hhb, hge, hex⟩
        · rw [if_neg ht6] at h
          by_cases thw : t = 20 ∨ t = 15
          · rw [if_pos thw] at h
            by_cases hbody : body = []
            · rw [if_neg (by simp [hbody])] at h
              exact afterRecv_ping_cases c [] time no_ping_nil c' effs broke h
            · rw [if_pos (by simp [hbody])] at h
              split at h
              next heq => exact Except.noConfusion h
              next r heq =>
                obtain ⟨c2, effs2⟩ := r
                obtain ⟨hhb2, hnp2⟩ := handleHw_no_ping env c _ c2 effs2 heq
                rcases afterRecv_ping_cases c2 effs2 time hnp2 c' effs broke h with
                  ⟨hhb, hf⟩ | ⟨hhb, hge, hex⟩
                · exact Or.inl ⟨hhb.trans hhb2, hf⟩
                · right
                  rw [hhb2] at hge
                  exact ⟨hhb, hge, hex⟩
          · rw [if_neg thw] at h
            simp only [Except.ok.injEq, Prod.mk.injEq] at h
            obtain ⟨hc, he, -⟩ := h
            subst hc
            subst he
            exact Or.inl ⟨rfl, rfl⟩

/-- Seconds of the pings inside the effects of a single iteration tagged
with its time. -/
theorem pingTimes_tagged (t : Nat) (effs : List Eff) :
    pingTimes (effs.map (fun e => (t, e))) =
      (effs.filter isPing).map (fun _ => t) := by
  induction effs with
  | nil => rfl
  | cons e rest ih =>
    simp only [List.map_cons, pingTimes, List.filter_cons] at ih ⊢
    cases he : isPing e with
    | false => simpa [he] using ih
    | true => simpa [he] using ih

theorem pingTimes_append (a b : List (Nat × Eff)) :
    pingTimes (a ++ b) = pingTimes a ++ pingTimes b := by
  simp [pingTimes, List.filter_append]

theorem chain_le_of_le {a t : Nat} {l : List Nat} (h : a ≤ t)
    (hc : List.Chain (fun x y => x ≤ y) t l) :
    List.Chain (fun x y => x ≤ y) a l := by
  cases hc with
  | nil => exact List.Chain.nil
  | cons hrel hrest => exact List.Chain.cons (le_trans h hrel) hrest

/-- Trace-level heartbeat spacing: along any run of the inner loop whose
iteration times are non-decreasing and start no earlier than the recorded
last-heartbeat time, consecutive ping times are at least HB_PERIOD (10)
apart, and the first ping comes at least 10 after the recorded
last-heartbeat time. -/
theorem runLoop_ping_chain (env : HwEnv) (c : Client)
    (events : List (RxEv × Nat)) (cf : Client) (trace : List (Nat × Eff))
    (hmono : List.Chain (fun a b => a ≤ b) c.hbTime (events.map Prod.snd))
    (hrun : runLoop env c events = .ok (cf, trace)) :
    List.Chain (fun a b => a + 10 ≤ b) c.hbTime (pingTimes trace) := by
  induction events generalizing c trace with
  | nil =>
    simp only [runLoop, Except.ok.injEq, Prod.mk.injEq] at hrun
    obtain ⟨-, ht⟩ := hrun
    subst ht
    exact List.Chain.nil
  | cons et rest ih =>
    obtain ⟨ev, t⟩ := et
    simp only [List.map_cons] at hmono
    have hle : c.hbTime ≤ t := List.chain_cons.mp hmono |>.1
    have hchain : List.Chain (fun a b => a ≤ b) t (rest.map Prod.snd) :=
      (List.chain_cons.mp hmono).2
    simp only [runLoop] at hrun
    cases hstep : innerStep env c ev t with
    | error e =>
      rw [hstep] at hrun
      exact absurd hrun (by simp)
    | ok r =>
      obtain ⟨c', effs, broke⟩ := r
      rw [hstep] at hrun
      simp only at hrun
      rcases innerStep_ping_cases env c ev t c' effs broke hstep with
        ⟨hhb, hfil⟩ | ⟨hhb, hge, id, hfil⟩
      · have htag : pingTimes (effs.map (fun e => (t, e))) = [] := by
          rw [pingTimes_tagged, hfil]
          rfl
        cases broke with
        | true =>
          rw [if_pos rfl] at hrun
          simp only [Except.ok.injEq, Prod.mk.injEq] at hrun
          obtain ⟨-, htr⟩ := hrun
          subst htr
          rw [htag]
          exact List.Chain.nil
        | false =>
          rw [if_neg Bool.false_ne_true] at hrun
          cases hrest : runLoop env c' rest with
          | error e =>
            rw [hrest] at hrun
            exact absurd hrun (by simp)
          | ok rr =>
            obtain ⟨cf', trace'⟩ := rr
            rw [hrest] at hrun
            simp only [Except.ok.injEq, Prod.mk.injEq] at hrun
            obtain ⟨hcf, htr⟩ := hrun
            subst hcf
            subst htr
            rw [pingTimes_append, htag, List.nil_append]
            have hch' : List.Chain (fun a b => a ≤ b) c'.hbTime
                (rest.map Prod.snd) := by
              rw [hhb]
              exact chain_le_of_le hle hchain
            have := ih c' trace' hch' hrest
            rw [hhb] at this
            exact this
      · have htag : pingTimes (effs.map (fun e => (t, e))) = [t] := by
          rw [pingTimes_tagged, hfil]
          rfl
        have hfirst : c.hbTime + 10 ≤ t := by omega
        cases broke with
        | true =>
          rw [if_pos rfl] at hrun
          simp only [Except.ok.injEq, Prod.mk.injEq] at hrun
          obtain ⟨-, htr⟩ := hrun
          subst htr
          rw [htag]
          exact List.Chain.cons hfirst List.Chain.nil
        | false =>
          rw [if_neg Bool.false_ne_true] at hrun
          cases hrest : runLoop env c' rest with
          | error e =>
            rw [hrest] at hrun
            exact absurd hrun (by simp)
          | ok rr =>
            obtain ⟨cf', trace'⟩ := rr
            rw [hrest] at hrun
            simp only [Except.ok.injEq, Prod.mk.injEq] at hrun
            obtain ⟨hcf, htr⟩ := hrun
            subst hcf
            subst htr
            rw [pingTimes_append, htag]
            have hch' : List.Chain (fun a b => a ≤ b) c'.hbTime
                (rest.map Prod.snd) := by
              rw [hhb]
              exact hchain
            have hrestChain := ih c' trace' hch' hrest
            rw [hhb] at hrestChain
            exact List.Chain.cons hfirst hrestChain

/-- Claim C5: while Authenticated, (a) along any inner-loop run whose
iteration times are non-decreasing (and not before the recorded
last-heartbeat time), any two consecutive heartbeat pings are at least
HB_PERIOD = 10 time units apart (and the first comes at least 10 after the
recorded last-heartbeat time); and (b) on the first iteration of a new
wall-clock second at which a sent ping is still unacknowledged 5 or more
time units after it was sent, the connection is closed with cause "Blynk
server is offline" and the state becomes Disconnected (0). -/
theorem heartbeat_spacing_and_timeout :
    (∀ (env : HwEnv) (c : Client) (events : List (RxEv × Nat)) (cf : Client)
        (trace : List (Nat × Eff)),
      List.Chain (fun a b => a ≤ b) c.hbTime (events.map Prod.snd) →
      runLoop env c events = .ok (cf, trace) →
      List.Chain (fun a b => a + 10 ≤ b) c.hbTime (pingTimes trace)) ∧
    ∀ (env : HwEnv) (c : Client) (t : Nat),
      c.lastHbId ≠ 0 → c.mTime ≠ t → 5 ≤ t - c.hbTime →
      innerStep env c .noData t =
        .ok ({ c with mTime := t, txCount := 0, state := 0 },
          [Eff.closed (some "Blynk server is offline")], true) := by
  constructor
  · exact fun env c events cf trace hmono hrun =>
      runLoop_ping_chain env c events cf trace hmono hrun
  · intro env c t hlast hm hge
    simp only [innerStep, afterRecv, serverAlive]
    rw [if_pos hm]
    rw [if_pos (And.intro hlast hge)]
    rfl

/-- Client for the C5 witness: freshly authenticated, heartbeat state
cleared. -/
def c5demo : Client := { runInit [] [97] with state := 3 }

/-- Client for the C5 timeout witness: a ping with id 7 was sent at second
20 and is still unacknowledged. -/
def c5off : Client :=
  { runInit [] [97] with state := 3, lastHbId := 7, hbTime := 20, mTime := 20 }

/-- Final client of the C5 witness run. -/
def c5cf : Client :=
  { runInit [] [97] with msgId := 2, mTime := 25, hbTime := 20, lastHbId := 2 }

/-- Trace of the C5 witness run: a ping at second 20, then the offline
close at second 25 (ping unacknowledged for 5 seconds). -/
def c5trace : List (Nat × Eff) :=
  [(20, .sent 6 2 0 []), (25, .closed (some "Blynk server is offline"))]

/-- Witness for C5: the concrete two-iteration run and the concrete
timeout step. -/
theorem heartbeat_spacing_and_timeout_witness :
    List.Chain (fun a b => a + 10 ≤ b) c5demo.hbTime (pingTimes c5trace) ∧
    innerStep env0 c5off .noData 25 =
      .ok ({ c5off with mTime := 25, txCount := 0, state := 0 },
        [Eff.closed (some "Blynk server is offline")], true) := by
  have h := heartbeat_spacing_and_timeout
  refine ⟨h.1 env0 c5demo [(.noData, 20), (.noData, 25)] c5cf c5trace ?_ (by decide),
    h.2 env0 c5off 25 (by decide) (by decide) (by decide)⟩
  exact List.Chain.cons (by decide) (List.Chain.cons (by decide) List.Chain.nil)

end Blynk
